import Mathlib

/-!
Shallow embedding of the audio capture pipeline in src/lib/audio_capture.py.

Sample values are modelled as exact rationals; the non-finite float values
NaN, +inf and -inf that can occur inside the normalization step are modelled
by an explicit inductive wrapper FVal.  Wall-clock readings of time.monotonic
are passed to the step function as inputs (seconds, as rationals).  The
sounddevice / scipy library boundary is modelled as follows: the per-rate
capability check of sd.check_input_settings becomes a boolean oracle, and
scipy.signal.resample_poly (only reached when the working rate differs from
16000) becomes an abstract function parameter, since its polyphase FIR kernel
is floating-point library code outside this embedding.
-/

set_option autoImplicit false

namespace AudioCaptureModel

/-- Module constant (line 13): SAMPLE_RATE = 16000. -/
def SAMPLE_RATE : ℕ := 16000

/-- Module constant (line 14): FALLBACK_SAMPLE_RATES = [16000, 44100, 48000, 8000]. -/
def FALLBACK_SAMPLE_RATES : List ℕ := [16000, 44100, 48000, 8000]

/-- Module constant (line 17): VAD_THRESHOLD = 0.0035. -/
def VAD_THRESHOLD : ℚ := 35 / 10000

/-- Module constant (line 18): SILENCE_THRESHOLD_MS = 800. -/
def SILENCE_THRESHOLD_MS : ℚ := 800

/-- Module constant (line 19): MIN_AUDIO_DURATION_SECONDS = 0.5. -/
def MIN_AUDIO_DURATION_SECONDS : ℚ := 1 / 2

/-- The largest finite float32 value, (2^24 - 1) * 2^104; np.nan_to_num on a
float32 array replaces +inf with this value and -inf with its negation. -/
def FLOAT32_MAX : ℚ := 2 ^ 128 - 2 ^ 104

/-- A float32 sample value: either a finite rational or one of the three
non-finite values. -/
inductive FVal where
  | fin (q : ℚ)
  | nan
  | inf
  | neginf
deriving DecidableEq, Repr

/-- Semantics of np.nan_to_num (line 88) on one float32 value: NaN becomes 0,
+inf becomes the largest finite float32, -inf its negation, finite unchanged. -/
def nanToNum : FVal → ℚ
  | .fin q => q
  | .nan => 0
  | .inf => FLOAT32_MAX
  | .neginf => -FLOAT32_MAX

/-- np.abs(xs).max() over a sample list, with 0 for the empty list
(the buffers reaching it in the source are never empty). -/
def peak (xs : List ℚ) : ℚ := xs.foldr (fun x m => max |x| m) 0

/-- np.clip(x, -1.0, 1.0) on one sample (line 95). -/
def clip (x : ℚ) : ℚ := max (-1) (min x 1)

/-- The gain-and-clip tail of _normalize_audio (lines 90-95) acting on the
already scrubbed (finite) samples: scale by 0.9 / peak when the peak is
positive, then clip every sample to [-1, 1]. -/
def normalize_fin (s : List ℚ) : List ℚ :=
  (if 0 < peak s then s.map (fun x => x / peak s * (9 / 10)) else s).map clip

/-- _normalize_audio (lines 86-95): np.nan_to_num scrub, then auto-gain
scaling and clipping. -/
def normalize_aud (buf : List FVal) : List ℚ := normalize_fin (buf.map nanToNum)

/-- A numpy array as it reaches _ensure_mono: either one-dimensional, or
two-dimensional with one row per time step (each row lists the channels). -/
inductive Aud where
  | oneD (xs : List FVal)
  | twoD (rows : List (List FVal))

/-- _ensure_mono (lines 80-84): a two-dimensional array keeps channel 0 only
(in numpy the rows of a (n, c) array with c at least 1 are never empty, so the
default of headD is unreachable on inputs from the source). -/
def ensure_mono : Aud → List FVal
  | .oneD xs => xs
  | .twoD rows => rows.map (fun row => row.headD (.fin 0))

/-- _resample_to_16k (lines 97-104): identity at 16000; otherwise call the
polyphase resampler with the ratio 16000 / orig reduced to lowest terms,
exactly as Fraction(16000, orig) reduces it.  The resampler itself is the
abstract parameter rp (scipy.signal.resample_poly). -/
def resample_to_16k (rp : List ℚ → ℕ → ℕ → List ℚ) (xs : List ℚ)
    (orig_sample_rate : ℕ) : List ℚ :=
  if orig_sample_rate = 16000 then xs
  else rp xs (16000 / Nat.gcd 16000 orig_sample_rate)
         (orig_sample_rate / Nat.gcd 16000 orig_sample_rate)

/-- _preprocess_audio (lines 106-114): mono reduction, then normalization,
then resampling to 16 kHz. -/
def preprocess_aud (rp : List ℚ → ℕ → ℕ → List ℚ) (a : Aud)
    (orig_sample_rate : ℕ) : List ℚ :=
  resample_to_16k rp (normalize_aud (ensure_mono a)) orig_sample_rate

/-- Mean absolute amplitude, float(np.mean(np.abs(data))) (lines 73, 169). -/
def energy (xs : List ℚ) : ℚ := (xs.map (fun x => |x|)).sum / xs.length

/-- _is_voice (lines 71-74): energy strictly above the threshold. -/
def is_voice (th : ℚ) (xs : List ℚ) : Prop := th < energy xs

instance (th : ℚ) (xs : List ℚ) : Decidable (is_voice th xs) := by
  unfold is_voice; infer_instance

/-- int(sample_rate * MIN_AUDIO_DURATION_SECONDS) from line 78: Python int()
truncates toward zero, which is the floor for this nonnegative product. -/
def min_samples (rate : ℕ) : ℤ := ⌊(rate : ℚ) * MIN_AUDIO_DURATION_SECONDS⌋

/-- _is_min_duration (lines 76-78): strictly more samples than the bound. -/
def is_min_duration (xs : List ℚ) (rate : ℕ) : Prop :=
  min_samples rate < (xs.length : ℤ)

instance (xs : List ℚ) (rate : ℕ) : Decidable (is_min_duration xs rate) := by
  unfold is_min_duration; infer_instance

/-- The loop of _get_working_sample_rate (lines 118-125): return the first
rate accepted by the capability check; ok r is true when
sd.check_input_settings succeeds for r, false when it raises PortAudioError. -/
def first_working (ok : ℕ → Bool) : List ℕ → Option ℕ
  | [] => none
  | r :: rest => if ok r then some r else first_working ok rest

/-- _get_working_sample_rate (lines 116-126); the none result models the
RuntimeError raised after every candidate failed. -/
def get_working_sample_rate (ok : ℕ → Bool) : Option ℕ :=
  first_working ok FALLBACK_SAMPLE_RATES

/-- The mutable fields of an AudioCapture object (lines 55-58). -/
structure AudioCapture where
  vad_threshold : ℚ
  sample_rate : ℕ
  paused : Bool
deriving DecidableEq, Repr

/-- AudioCapture.__init__ (lines 55-58). -/
def AudioCapture.init (th : ℚ) : AudioCapture :=
  { vad_threshold := th, sample_rate := SAMPLE_RATE, paused := false }

/-- AudioCapture.pause (lines 61-64): set the paused flag (the print is a pure
logging side effect, not modelled). -/
def AudioCapture.pause (s : AudioCapture) : AudioCapture := { s with paused := true }

/-- AudioCapture.resume (lines 66-69): clear the paused flag. -/
def AudioCapture.resume (s : AudioCapture) : AudioCapture := { s with paused := false }

/-- The per-iteration mutable state of the capture loop (lines 147-148):
the frame buffer and the last-voice timestamp (seconds). -/
structure CaptureState where
  buffer : List (List ℚ)
  lastVoice : Option ℚ
deriving DecidableEq, Repr

/-- The state at loop entry: empty buffer, no voice seen. -/
def initState : CaptureState := { buffer := [], lastVoice := none }

/-- The inputs one loop iteration consumes: the frame drained from the queue
(none when the queue was empty), the reading of time.monotonic for this
iteration, and the value of the paused flag as read at line 165. -/
structure Tick where
  data : Option (List ℚ)
  now : ℚ
  paused : Bool
deriving DecidableEq, Repr

/-- What the iteration did with the segment, if any: delivered raw buffers are
passed on to _preprocess_audio and then to the callback (lines 196-198),
discarded ones are only logged (line 200). -/
inductive EmitResult where
  | none
  | discarded (raw : List ℚ)
  | delivered (raw : List ℚ)
deriving DecidableEq, Repr

/-- One iteration of the capture loop body (lines 158-200).  Reads the drained
data; skips everything when there is no data or the capture is paused;
otherwise refreshes the last-voice timestamp on a voiced frame, appends the
frame to the buffer once voice has been seen, and on 800 ms of trailing
silence concatenates and clears the buffer, resets the timestamp, and emits
(delivered or discarded by the minimum-duration gate). -/
def captureStep (th : ℚ) (rate : ℕ) (st : CaptureState) (t : Tick) :
    CaptureState × EmitResult :=
  match t.data with
  | none => (st, .none)
  | some frame =>
    if t.paused then (st, .none)
    else
      match (if is_voice th frame then some t.now else st.lastVoice) with
      | none => (st, .none)
      | some lvt =>
        let buf := st.buffer ++ [frame]
        if SILENCE_THRESHOLD_MS ≤ (t.now - lvt) * 1000 then
          let raw := buf.flatten
          if is_min_duration raw rate then
            ({ buffer := [], lastVoice := none }, .delivered raw)
          else
            ({ buffer := [], lastVoice := none }, .discarded raw)
        else
          ({ buffer := buf, lastVoice := some lvt }, .none)

/-- Iterating the capture loop over a list of tick inputs (state only). -/
def captureRun (th : ℚ) (rate : ℕ) (st : CaptureState) (ts : List Tick) :
    CaptureState :=
  ts.foldl (fun s t => (captureStep th rate s t).1) st

/-- The original wording of the scrub claim: every non-finite sample becomes
0.  Stated from the spec text, to be compared with nanToNum from the source. -/
def claimed_scrub : FVal → ℚ
  | .fin q => q
  | .nan => 0
  | .inf => 0
  | .neginf => 0

/-- The amended wording of the scrub claim: NaN becomes 0, +inf the largest
finite float32 value, -inf its negation.  Stated from the amended text, to be
compared with nanToNum from the source. -/
def amended_scrub : FVal → ℚ
  | .fin q => q
  | .nan => 0
  | .inf => FLOAT32_MAX
  | .neginf => -FLOAT32_MAX

end AudioCaptureModel

namespace AudioCaptureModel

/-! ### Basic facts about peak, clip and normalization -/

lemma peak_cons (x : ℚ) (xs : List ℚ) : peak (x :: xs) = max |x| (peak xs) := rfl

lemma peak_nonneg (xs : List ℚ) : 0 ≤ peak xs := by
  induction xs with
  | nil => simp [peak]
  | cons x xs ih => rw [peak_cons]; exact le_trans ih (le_max_right _ _)

lemma abs_le_peak {x : ℚ} {xs : List ℚ} (h : x ∈ xs) : |x| ≤ peak xs := by
  induction xs with
  | nil => cases h
  | cons y ys ih =>
    rw [peak_cons]
    rcases List.mem_cons.mp h with h1 | h2
    · exact h1 ▸ le_max_left _ _
    · exact le_trans (ih h2) (le_max_right _ _)

lemma peak_eq_zero_mem {xs : List ℚ} (h : peak xs = 0) {x : ℚ} (hx : x ∈ xs) :
    x = 0 := by
  have h1 := abs_le_peak hx
  rw [h] at h1
  exact abs_eq_zero.mp (le_antisymm h1 (abs_nonneg x))

lemma peak_eq_zero_of_forall {xs : List ℚ} (h : ∀ x ∈ xs, x = 0) :
    peak xs = 0 := by
  induction xs with
  | nil => rfl
  | cons x xs ih =>
    rw [peak_cons, h x (List.mem_cons_self x xs),
      ih (fun y hy => h y (List.mem_cons_of_mem x hy))]
    simp

lemma peak_map_mul (xs : List ℚ) (c : ℚ) (hc : 0 ≤ c) :
    peak (xs.map (fun x => x * c)) = peak xs * c := by
  induction xs with
  | nil => simp [peak]
  | cons x xs ih =>
    simp only [List.map_cons, peak_cons, ih, abs_mul, abs_of_nonneg hc]
    exact (max_mul_of_nonneg _ _ hc).symm

lemma clip_eq_self {x : ℚ} (h : |x| ≤ 1) : clip x = x := by
  rcases abs_le.mp h with ⟨h1, h2⟩
  unfold clip
  rw [min_eq_left h2, max_eq_right h1]

lemma map_clip_eq_self {xs : List ℚ} (h : ∀ x ∈ xs, |x| ≤ 1) :
    xs.map clip = xs := by
  induction xs with
  | nil => rfl
  | cons x xs ih =>
    rw [List.map_cons, clip_eq_self (h x (List.mem_cons_self x xs)),
      ih (fun y hy => h y (List.mem_cons_of_mem x hy))]

lemma normalize_fin_of_peak_zero {s : List ℚ} (h : peak s = 0) :
    normalize_fin s = s := by
  unfold normalize_fin
  rw [h, if_neg (lt_irrefl 0)]
  exact map_clip_eq_self (fun x hx => by rw [peak_eq_zero_mem h hx]; norm_num)

lemma scaled_abs_le {s : List ℚ} (h : 0 < peak s) {x : ℚ} (hx : x ∈ s) :
    |x / peak s * (9 / 10)| ≤ 9 / 10 := by
  have h1 : |x| ≤ peak s := abs_le_peak hx
  have h2 : |x| / peak s ≤ 1 := (div_le_one h).mpr h1
  have h3 : |x / peak s * (9 / 10)| = |x| / peak s * (9 / 10) := by
    rw [abs_mul, abs_div, abs_of_pos h]
    norm_num
  rw [h3]
  nlinarith

lemma normalize_fin_of_peak_pos {s : List ℚ} (h : 0 < peak s) :
    normalize_fin s = s.map (fun x => x / peak s * (9 / 10)) := by
  unfold normalize_fin
  rw [if_pos h]
  apply map_clip_eq_self
  intro y hy
  rcases List.mem_map.mp hy with ⟨x, hx, rfl⟩
  exact le_trans (scaled_abs_le h hx) (by norm_num)

lemma peak_normalize_fin_pos {s : List ℚ} (h : 0 < peak s) :
    peak (normalize_fin s) = 9 / 10 := by
  rw [normalize_fin_of_peak_pos h]
  have he : (fun x => x / peak s * (9 / 10)) = fun x => x * (9 / 10 / peak s) := by
    funext x; ring
  rw [he, peak_map_mul _ _ (div_nonneg (by norm_num) (peak_nonneg s))]
  field_simp
  ring

lemma normalize_fin_idem (s : List ℚ) :
    normalize_fin (normalize_fin s) = normalize_fin s := by
  rcases (peak_nonneg s).lt_or_eq with hpos | hzero
  · have hpy : peak (normalize_fin s) = 9 / 10 := peak_normalize_fin_pos hpos
    rw [normalize_fin_of_peak_pos (by rw [hpy]; norm_num), hpy]
    have hid : ∀ x : ℚ, x / (9 / 10) * (9 / 10) = x :=
      fun x => div_mul_cancel₀ x (by norm_num)
    simp [hid]
  · rw [normalize_fin_of_peak_zero hzero.symm, normalize_fin_of_peak_zero hzero.symm]

lemma map_fin_nanToNum (l : List ℚ) : (l.map FVal.fin).map nanToNum = l := by
  rw [List.map_map]
  have h : nanToNum ∘ FVal.fin = id := by funext q; rfl
  rw [h, List.map_id]

lemma normalize_aud_idem (buf : List FVal) :
    normalize_aud ((normalize_aud buf).map FVal.fin) = normalize_aud buf := by
  unfold normalize_aud
  rw [map_fin_nanToNum]
  exact normalize_fin_idem _

end AudioCaptureModel

namespace AudioCaptureModel

/-! ### Claims about the preprocessor and the object-level controls -/

/-- Claim C6, counterexample: the original wording says the scrub replaces
every non-finite sample with 0 before gain normalization; on the buffer
holding a single +inf sample the source pipeline scrubs to the largest finite
float32 value and then normalizes it to 0.9, while the claimed scrub would
yield the all-zero buffer, which normalization leaves at 0. -/
theorem scrub_claim_counterexample :
    normalize_aud [FVal.inf] = [(9 : ℚ) / 10] ∧
      normalize_fin ([FVal.inf].map claimed_scrub) = [0] ∧
      normalize_aud [FVal.inf] ≠ normalize_fin ([FVal.inf].map claimed_scrub) := by
  norm_num [normalize_aud, normalize_fin, peak, clip, nanToNum, claimed_scrub,
    FLOAT32_MAX, abs_eq_max_neg, max_def, min_def]

/-- Claim C6, amended: inside _normalize_audio the scrub step rewrites every
sample before gain normalization as follows: finite samples are unchanged,
NaN becomes 0, +inf becomes the largest finite float32 value and -inf its
negation; gain normalization then acts on exactly that scrubbed sequence. -/
theorem scrub_amended (buf : List FVal) :
    normalize_aud buf = normalize_fin (buf.map amended_scrub) := by
  unfold normalize_aud
  have h : nanToNum = amended_scrub := by
    funext v; cases v <;> rfl
  rw [h]

/-- Claim C7: auto-gain normalization rescales any buffer whose scrubbed peak
is positive so that the new peak is exactly 0.9 (each sample is multiplied by
0.9 over the old peak, so a buffer of peak 0.45 is doubled), and on a buffer
whose scrubbed samples are all zero (an all-zero buffer, or an all-NaN buffer
after the scrub) it is the identity: the zero-peak guard skips the division,
so the total function raises nothing. -/
theorem auto_gain_normalization (buf : List FVal) :
    (0 < peak (buf.map nanToNum) →
      normalize_aud buf
          = (buf.map nanToNum).map
              (fun x => x / peak (buf.map nanToNum) * (9 / 10))
        ∧ peak (normalize_aud buf) = 9 / 10)
    ∧ ((∀ x ∈ buf.map nanToNum, x = (0 : ℚ)) →
      normalize_aud buf = buf.map nanToNum) := by
  constructor
  · intro hp
    exact ⟨normalize_fin_of_peak_pos hp, peak_normalize_fin_pos hp⟩
  · intro hz
    exact normalize_fin_of_peak_zero (peak_eq_zero_of_forall hz)

/-- Witness for C7 at the concrete buffer [0.45, NaN]: the scrubbed peak 0.45
is positive, the sample 0.45 is doubled to 0.9, NaN went to 0, and the
resulting peak is exactly 0.9. -/
theorem auto_gain_normalization_witness :
    normalize_aud [FVal.fin (9 / 20), FVal.nan] = [(9 : ℚ) / 10, 0] ∧
      peak (normalize_aud [FVal.fin (9 / 20), FVal.nan]) = 9 / 10 := by
  have hp : 0 < peak ([FVal.fin (9 / 20), FVal.nan].map nanToNum) := by
    norm_num [nanToNum, peak, abs_eq_max_neg, max_def]
  have h := (auto_gain_normalization [FVal.fin (9 / 20), FVal.nan]).1 hp
  refine ⟨?_, h.2⟩
  rw [h.1]
  norm_num [nanToNum, peak, abs_eq_max_neg, max_def]

/-- Claim C8: preprocessing is idempotent at the canonical rate: feeding the
output of one application (a mono buffer at source rate 16000) through the
preprocessor again returns it unchanged; in exact arithmetic the re-scaling
by 0.9 over a peak already equal to 0.9 is the identity, so no tolerance is
needed.  The abstract polyphase resampler rp is arbitrary because the rate
16000 branch never calls it. -/
theorem preprocess_idempotent_at_16k (rp : List ℚ → ℕ → ℕ → List ℚ) (a : Aud) :
    preprocess_aud rp (.oneD ((preprocess_aud rp a 16000).map FVal.fin)) 16000
      = preprocess_aud rp a 16000 := by
  simp only [preprocess_aud, resample_to_16k, if_pos, ensure_mono, reduceIte]
  exact normalize_aud_idem _

/-- Claim C5: rate negotiation walks [16000, 44100, 48000, 8000] in order and
returns the first rate whose capability check succeeds, and the
no-supported-rate failure happens exactly when every candidate fails. -/
theorem rate_negotiation_first_viable (ok : ℕ → Bool) :
    (ok 16000 = true → get_working_sample_rate ok = some 16000)
    ∧ (ok 16000 = false → ok 44100 = true →
        get_working_sample_rate ok = some 44100)
    ∧ (ok 16000 = false → ok 44100 = false → ok 48000 = true →
        get_working_sample_rate ok = some 48000)
    ∧ (ok 16000 = false → ok 44100 = false → ok 48000 = false →
        ok 8000 = true → get_working_sample_rate ok = some 8000)
    ∧ (get_working_sample_rate ok = none ↔
        ok 16000 = false ∧ ok 44100 = false ∧ ok 48000 = false ∧
          ok 8000 = false) := by
  cases h16 : ok 16000 <;> cases h44 : ok 44100 <;> cases h48 : ok 48000 <;>
    cases h8 : ok 8000 <;>
    simp [get_working_sample_rate, FALLBACK_SAMPLE_RATES, first_working,
      h16, h44, h48, h8]

/-- Witness for C5 with a mock device validating only 44100 and 48000: the
negotiator returns 44100, the first viable candidate, never 48000. -/
theorem rate_negotiation_first_viable_witness :
    get_working_sample_rate (fun r => (r == 44100) || (r == 48000))
      = some 44100 :=
  (rate_negotiation_first_viable (fun r => (r == 44100) || (r == 48000))).2.1
    rfl rfl

/-- Claim C10: pause and resume set the paused flag to true and false
respectively and leave the vad_threshold and sample_rate fields unchanged. -/
theorem pause_resume_touch_only_paused (s : AudioCapture) :
    s.pause.paused = true ∧ s.resume.paused = false
    ∧ s.pause.vad_threshold = s.vad_threshold
    ∧ s.pause.sample_rate = s.sample_rate
    ∧ s.resume.vad_threshold = s.vad_threshold
    ∧ s.resume.sample_rate = s.sample_rate :=
  ⟨rfl, rfl, rfl, rfl, rfl, rfl⟩

end AudioCaptureModel

namespace AudioCaptureModel

/-! ### Characterizing one iteration of the capture loop -/

lemma captureStep_data_none (th : ℚ) (rate : ℕ) (st : CaptureState) (now : ℚ)
    (p : Bool) : captureStep th rate st ⟨none, now, p⟩ = (st, .none) := rfl

lemma captureStep_paused (th : ℚ) (rate : ℕ) (st : CaptureState)
    (frame : List ℚ) (now : ℚ) :
    captureStep th rate st ⟨some frame, now, true⟩ = (st, .none) := rfl

lemma captureStep_no_voice (th : ℚ) (rate : ℕ) (st : CaptureState)
    (frame : List ℚ) (now : ℚ) (hv : ¬ is_voice th frame)
    (hlv : st.lastVoice = none) :
    captureStep th rate st ⟨some frame, now, false⟩ = (st, .none) := by
  unfold captureStep
  simp [hv, hlv]

lemma captureStep_tracking (th : ℚ) (rate : ℕ) (st : CaptureState)
    (frame : List ℚ) (now lvt : ℚ)
    (h : (if is_voice th frame then some now else st.lastVoice) = some lvt) :
    captureStep th rate st ⟨some frame, now, false⟩ =
      if SILENCE_THRESHOLD_MS ≤ (now - lvt) * 1000 then
        if is_min_duration ((st.buffer ++ [frame]).flatten) rate then
          ({ buffer := [], lastVoice := none },
           .delivered ((st.buffer ++ [frame]).flatten))
        else
          ({ buffer := [], lastVoice := none },
           .discarded ((st.buffer ++ [frame]).flatten))
      else
        ({ buffer := st.buffer ++ [frame], lastVoice := some lvt },
         .none) := by
  unfold captureStep
  simp only [h, Bool.false_eq_true, if_false]

end AudioCaptureModel

namespace AudioCaptureModel

/-- Claim C1: for a state with the last-voice timestamp set, on a drained
frame with capture not paused: when the elapsed time since the last voiced
frame (refreshed to now when this frame is voiced) is strictly below 800 ms,
the state stays Voiced with the frame appended and nothing is emitted; when
it is at least 800 ms, the buffer (with this frame appended, as the source
appends before testing) is concatenated into one raw buffer, the buffer is
cleared, the timestamp is reset to none, and the tick emits (delivered or
discarded by the duration gate). -/
theorem silence_threshold_boundary (th : ℚ) (rate : ℕ) (st : CaptureState)
    (frame : List ℚ) (now lv : ℚ) (hlv : st.lastVoice = some lv) :
    ((now - (if is_voice th frame then now else lv)) * 1000 < 800 →
      captureStep th rate st ⟨some frame, now, false⟩
        = ({ buffer := st.buffer ++ [frame],
             lastVoice := some (if is_voice th frame then now else lv) },
           EmitResult.none))
    ∧ (800 ≤ (now - (if is_voice th frame then now else lv)) * 1000 →
      (captureStep th rate st ⟨some frame, now, false⟩).1.buffer = []
      ∧ (captureStep th rate st ⟨some frame, now, false⟩).1.lastVoice = none
      ∧ ((captureStep th rate st ⟨some frame, now, false⟩).2
            = EmitResult.delivered ((st.buffer ++ [frame]).flatten)
         ∨ (captureStep th rate st ⟨some frame, now, false⟩).2
            = EmitResult.discarded ((st.buffer ++ [frame]).flatten))) := by
  have hmt := captureStep_tracking th rate st frame now
      (if is_voice th frame then now else lv)
      (by by_cases hv : is_voice th frame <;> simp [hv, hlv])
  constructor
  · intro hlt
    rw [hmt, if_neg (by simp only [SILENCE_THRESHOLD_MS]; exact not_le.mpr hlt)]
  · intro hge
    rw [hmt, if_pos (by simp only [SILENCE_THRESHOLD_MS]; exact hge)]
    by_cases hmin : is_min_duration ((st.buffer ++ [frame]).flatten) rate
    · rw [if_pos hmin]; exact ⟨rfl, rfl, Or.inl rfl⟩
    · rw [if_neg hmin]; exact ⟨rfl, rfl, Or.inr rfl⟩

/-- Witness for C1: a voiced frame arriving with the timestamp already set
and no elapsed silence keeps the state Voiced and appends the frame. -/
theorem silence_threshold_boundary_witness :
    captureStep (35 / 10000) 16000 { buffer := [], lastVoice := some 0 }
        ⟨some [1 / 100], 0, false⟩
      = ({ buffer := [[1 / 100]], lastVoice := some 0 }, EmitResult.none) := by
  have hv : is_voice ((35 : ℚ) / 10000) [1 / 100] := by
    norm_num [is_voice, energy, abs_eq_max_neg, max_def]
  have h2 := (silence_threshold_boundary (35 / 10000) 16000
      { buffer := [], lastVoice := some 0 } [1 / 100] 0 0 rfl).1
      (by rw [if_pos hv]; norm_num)
  simpa [hv] using h2

/-- Claim C2: at emit time (silence threshold already elapsed), a raw buffer
with at most floor(0.5 x rate) samples is discarded without invoking the
output callback, and one with strictly more samples is delivered; the gate is
a strict greater-than comparison. -/
theorem min_duration_gate_strict (th : ℚ) (rate : ℕ) (st : CaptureState)
    (frame : List ℚ) (now lv : ℚ) (hlv : st.lastVoice = some lv)
    (hsil : 800 ≤ (now - (if is_voice th frame then now else lv)) * 1000) :
    ((((st.buffer ++ [frame]).flatten.length : ℤ) ≤ min_samples rate →
      captureStep th rate st ⟨some frame, now, false⟩
        = ({ buffer := [], lastVoice := none },
           EmitResult.discarded ((st.buffer ++ [frame]).flatten)))
    ∧ (min_samples rate < ((st.buffer ++ [frame]).flatten.length : ℤ) →
      captureStep th rate st ⟨some frame, now, false⟩
        = ({ buffer := [], lastVoice := none },
           EmitResult.delivered ((st.buffer ++ [frame]).flatten)))) := by
  have hmt := captureStep_tracking th rate st frame now
      (if is_voice th frame then now else lv)
      (by by_cases hv : is_voice th frame <;> simp [hv, hlv])
  rw [hmt, if_pos (by simp only [SILENCE_THRESHOLD_MS]; exact hsil)]
  constructor
  · intro hle
    rw [if_neg (by simp only [is_min_duration]; exact not_lt.mpr hle)]
  · intro hgt
    rw [if_pos (by simp only [is_min_duration]; exact hgt)]

/-- Witness for C2: an unvoiced frame after one second of silence triggers an
emit whose three samples are at most the 8000-sample bound for rate 16000, so
the segment is discarded, the buffer cleared and the timestamp reset. -/
theorem min_duration_gate_strict_witness :
    captureStep (35 / 10000) 16000 { buffer := [[0]], lastVoice := some 0 }
        ⟨some [0, 0], 1, false⟩
      = ({ buffer := [], lastVoice := none }, EmitResult.discarded [0, 0, 0]) := by
  have hnv : ¬ is_voice ((35 : ℚ) / 10000) [0, 0] := by
    norm_num [is_voice, energy]
  have h2 := (min_duration_gate_strict (35 / 10000) 16000
      { buffer := [[0]], lastVoice := some 0 } [0, 0] 1 0 rfl
      (by rw [if_neg hnv]; norm_num)).1
      (by norm_num [min_samples, MIN_AUDIO_DURATION_SECONDS])
  simpa using h2

/-- Claim C3: a paused iteration appends nothing, leaves the segmenter state
(buffer and last-voice timestamp) untouched and emits nothing, while the same
voiced frame in an unpaused iteration grows the buffer by that frame. -/
theorem pause_freezes_segmentation (th : ℚ) (rate : ℕ) (st : CaptureState)
    (frame : List ℚ) (now : ℚ) (hv : is_voice th frame) :
    captureStep th rate st ⟨some frame, now, true⟩ = (st, EmitResult.none)
    ∧ (captureStep th rate st ⟨some frame, now, false⟩).1.buffer
        = st.buffer ++ [frame] := by
  refine ⟨captureStep_paused th rate st frame now, ?_⟩
  have hmt := captureStep_tracking th rate st frame now now (by rw [if_pos hv])
  rw [hmt, if_neg (by rw [sub_self, zero_mul]; norm_num [SILENCE_THRESHOLD_MS])]

/-- Witness for C3 on a concrete above-threshold frame: paused leaves the
state unchanged, unpaused appends the frame. -/
theorem pause_freezes_segmentation_witness :
    captureStep (35 / 10000) 16000 { buffer := [], lastVoice := none }
        ⟨some [1 / 100], 0, true⟩
      = ({ buffer := [], lastVoice := none }, EmitResult.none)
    ∧ (captureStep (35 / 10000) 16000 { buffer := [], lastVoice := none }
        ⟨some [1 / 100], 0, false⟩).1.buffer = [[1 / 100]] := by
  have hv : is_voice ((35 : ℚ) / 10000) [1 / 100] := by
    norm_num [is_voice, energy, abs_eq_max_neg, max_def]
  have h := pause_freezes_segmentation (35 / 10000) 16000
      { buffer := [], lastVoice := none } [1 / 100] 0 hv
  exact ⟨h.1, by simpa using h.2⟩

/-- The invariant of claim C9: the buffer is empty whenever the last-voice
timestamp is none. -/
def seg_idle_inv (st : CaptureState) : Prop := st.lastVoice = none → st.buffer = []

lemma captureStep_preserves_inv (th : ℚ) (rate : ℕ) (st : CaptureState)
    (t : Tick) (h : seg_idle_inv st) : seg_idle_inv (captureStep th rate st t).1 := by
  rcases t with ⟨data, now, p⟩
  rcases data with _ | frame
  · rw [captureStep_data_none]; exact h
  · cases p with
    | true => rw [captureStep_paused]; exact h
    | false =>
      by_cases hv : is_voice th frame
      · have hmt := captureStep_tracking th rate st frame now now (by rw [if_pos hv])
        rw [hmt]
        split_ifs <;> intro hn <;>
          first
          | rfl
          | exact absurd hn (Option.some_ne_none now)
      · rcases hcase : st.lastVoice with _ | lv
        · rw [captureStep_no_voice th rate st frame now hv hcase]; exact h
        · have hmt := captureStep_tracking th rate st frame now lv
            (by rw [if_neg hv]; exact hcase)
          rw [hmt]
          split_ifs <;> intro hn <;>
            first
            | rfl
            | exact absurd hn (Option.some_ne_none lv)

lemma captureRun_preserves_inv (th : ℚ) (rate : ℕ) (ts : List Tick)
    (st : CaptureState) (h : seg_idle_inv st) :
    seg_idle_inv (captureRun th rate st ts) := by
  induction ts generalizing st with
  | nil => exact h
  | cons t ts ih => exact ih _ (captureStep_preserves_inv th rate st t h)

/-- Claim C9: in every state reachable from the loop-entry state between
iterations, the buffer can be non-empty only while the last-voice timestamp
is set: whenever the timestamp is none, the buffer is empty (the emitting
tick itself ends with both cleared, so the invariant holds at every
iteration boundary). -/
theorem capture_buffer_idle_invariant (th : ℚ) (rate : ℕ) (ts : List Tick)
    (hidle : (captureRun th rate initState ts).lastVoice = none) :
    (captureRun th rate initState ts).buffer = [] :=
  captureRun_preserves_inv th rate ts initState (fun _ => rfl) hidle

/-- Witness for C9 on a concrete trace: a paused tick followed by an empty
drain leaves the idle state, where the buffer is empty. -/
theorem capture_buffer_idle_invariant_witness :
    (captureRun (35 / 10000) 16000 initState
        [⟨some [1], 0, true⟩, ⟨none, 1, false⟩]).buffer = [] :=
  capture_buffer_idle_invariant (35 / 10000) 16000
    [⟨some [1], 0, true⟩, ⟨none, 1, false⟩] rfl

end AudioCaptureModel
